import Mathlib

/-!
Verification development for the griffe-fieldz extension
(src/griffe_fieldz/_extension.py).

The extension is a documentation plugin: for every record-like class it
enumerates fields through the fieldz adapter and merges parameter and
attribute descriptors into the class docstring's parsed section list.
The definitions below are a shallow embedding of that module:

* String-valued operations on externals are pre-applied: a Python value
  whose repr matters is modelled by its repr string, a declared type by
  its display_as_type rendering, and the griffe docstring parser's output
  for a synthesized docstring is carried as data (parsedDoc).
* Python truthiness on optional strings (None and the empty string are
  falsy) is modelled by pyTruthyS, and on lists by isEmpty checks.
* textwrap.dedent and str.strip are implemented over character lists,
  following CPython's textwrap.dedent (whitespace-only lines emptied,
  margin = longest common space/tab indent of the remaining lines).
  str.strip is modelled for the ASCII whitespace characters.
* Exceptions are modelled with Except; the hook's external calls
  (dynamic_import, get_adapter, agent.visit) appear as Except-valued or
  flag-valued inputs.
-/

/-- A griffe annotation value: either an Expr produced by
parse_docstring_annotation (always truthy) or a raw string (falsy when
empty), mirroring the str | Expr | None union used by the source. -/
inductive Annot where
  | expr (s : String)
  | raw (s : String)
deriving DecidableEq, Repr

/-- A member recorded in the traversal agent's current-scope mapping:
its docstring value (when a docstring object is attached) and its
annotation, as read by _agent_docstring. -/
structure Member where
  docstring : Option String
  annot : Option Annot
deriving DecidableEq, Repr

/-- The agent's current-scope members mapping (a dict in the source). -/
abbrev Members := List (String × Member)

/-- The traversal agent: the current scope's members mapping plus the
rest of its state, which _agent_temp_members never touches. -/
structure Agent where
  members : Members
  rest : Nat
deriving DecidableEq, Repr

/-- A fieldz.Field as consumed by the source: name, rendered declared
type (none models a missing/None type), description, metadata mapping,
default (some r models a non-MISSING default with repr r), default
factory (some r models a non-MISSING factory with repr of its
zero-argument invocation r), and the constructor-participation flag. -/
structure FieldInfo where
  name : String
  type : Option String
  description : Option String
  metadata : List (String × String)
  default : Option String
  default_factory : Option String
  init : Bool
deriving DecidableEq, Repr

/-- One descriptor record of a docstring section (DocstringParameter /
DocstringAttribute share these four slots). -/
structure DocstringElement where
  name : String
  annot : Option Annot
  description : String
  value : Option String
deriving DecidableEq, Repr

/-- A parsed docstring section: the two kinds the source inspects with
isinstance, plus text standing in for every other section kind. -/
inductive DocstringSection where
  | parameters (value : List DocstringElement)
  | attributes (value : List DocstringElement)
  | text (s : String)
deriving DecidableEq, Repr

/-- The class object as the hook sees it: fully-qualified path and the
parsed section list of its docstring (none = no docstring object). -/
structure ClassObj where
  path : String
  docstring : Option (List DocstringSection)
deriving DecidableEq, Repr

/-- The imported runtime object: the host parser's sections for its
cleandoc'd __doc__ (used only when the class has no docstring yet), the
adapter's field list, the keys of its own __annotations__, and whether
fieldz.get_adapter succeeds on it. -/
structure RuntimeObj where
  parsedDoc : List DocstringSection
  fields : List FieldInfo
  annNames : List String
  adaptable : Bool
deriving DecidableEq, Repr

/-- FieldzExtension configuration (constructor arguments). -/
structure Config where
  object_paths : Option (List String)
  include_private : Bool
  include_inherited : Bool
deriving DecidableEq, Repr

/-- A log record; the source only ever logs at debug level. -/
inductive LogEvent where
  | debug (msg : String)
deriving DecidableEq, Repr

/-- Python truthiness of an optional string: None and "" are falsy. -/
def pyTruthyS (s : Option String) : Bool :=
  match s with
  | none => false
  | some t => !(t == "")

/-- Python `a or b` on optional strings. -/
def pyOrS (a b : Option String) : Option String :=
  if pyTruthyS a then a else b

/-- dict.get(k, d) on the metadata mapping. -/
def metaGet (m : List (String × String)) (k d : String) : String :=
  match m.lookup k with
  | some v => v
  | none => d

/-- Characters counted as indentation by textwrap.dedent. -/
def isIndentChar (c : Char) : Bool := c == ' ' || c == '\t'

/-- str.split of a character list on the newline character. -/
def splitLines : List Char → List (List Char)
  | [] => [[]]
  | c :: cs =>
    let r := splitLines cs
    if c = '\n' then [] :: r
    else
      match r with
      | [] => [[c]]
      | l :: ls => (c :: l) :: ls

/-- Rejoin lines with newline characters. -/
def joinLines : List (List Char) → List Char
  | [] => []
  | [l] => l
  | l :: ls => l ++ '\n' :: joinLines ls

/-- Longest common prefix of two indents, the net effect of
textwrap.dedent's margin update loop. -/
def commonIndent : List Char → List Char → List Char
  | a :: as1, b :: bs => if a == b then a :: commonIndent as1 bs else []
  | _, _ => []

/-- textwrap.dedent on split lines: empty the whitespace-only lines,
compute the margin as the common space/tab indent of the remaining
lines, and strip it from every line that starts with it. -/
def dedentLines (lines0 : List (List Char)) : List (List Char) :=
  let lines := lines0.map (fun l => if !l.isEmpty && l.all isIndentChar then [] else l)
  let indents := (lines.filter (fun l => !l.isEmpty)).map (fun l => l.takeWhile isIndentChar)
  let margin :=
    match indents with
    | [] => []
    | i :: is1 => is1.foldl commonIndent i
  if margin.isEmpty then lines
  else lines.map (fun l => if margin.isPrefixOf l then l.drop margin.length else l)

/-- textwrap.dedent. -/
def dedent (s : String) : String :=
  ⟨joinLines (dedentLines (splitLines s.data))⟩

/-- str.strip(): drop ASCII whitespace from both ends. -/
def pyStrip (s : String) : String :=
  ⟨((s.data.dropWhile Char.isWhitespace).reverse.dropWhile Char.isWhitespace).reverse⟩

/-- _to_annotation: parse_docstring_annotation(display_as_type(t)) when
the type is present (truthy), None otherwise.  The field already stores
the display_as_type rendering. -/
def toAnnot (t : Option String) : Option Annot :=
  match t with
  | some s => some (Annot.expr s)
  | none => none

/-- Python truthiness of the agent's annotation value. -/
def annTruthy (a : Option Annot) : Bool :=
  match a with
  | none => false
  | some (Annot.expr _) => true
  | some (Annot.raw s) => !(s == "")

/-- _default_repr: repr(field.default) when the default is not MISSING,
else repr(field.default_factory()) when the factory is not MISSING,
else None. -/
def default_repr (f : FieldInfo) : Option String :=
  match f.default with
  | some r => some r
  | none =>
    match f.default_factory with
    | some r => some r
    | none => none

/-- _agent_docstring: look the name up in the agent's current members;
return the member's docstring value and annotation, or (None, None). -/
def agent_docstring (members : Members) (name : String) : Option String × Option Annot :=
  match members.lookup name with
  | none => (none, none)
  | some m => (m.docstring, m.annot)

/-- The description expression of _fields_to_params:
field.description or field.metadata.get("description", "") or agent_doc
or "". -/
def effDescription (f : FieldInfo) (agent_doc : Option String) : String :=
  (pyOrS f.description
    (pyOrS (some (metaGet f.metadata "description" ""))
      (pyOrS agent_doc (some "")))).getD ""

/-- One loop iteration of _fields_to_params: build the descriptor for a
field from the agent-discovered docstring/annotation and the field
data. -/
def mkElem (ms : Members) (f : FieldInfo) : DocstringElement :=
  ⟨f.name,
   if annTruthy (agent_docstring ms f.name).2 then (agent_docstring ms f.name).2
   else toAnnot f.type,
   pyStrip (dedent (effDescription f (agent_docstring ms f.name).1)),
   default_repr f⟩

/-- field.name.startswith of the single-character string made of one
underscore, as tested on line 191 of the source. -/
def startsWithUnderscore (s : String) : Bool :=
  match s.data with
  | [] => false
  | c :: _ => c == '_'

/-- _fields_to_params: split the fields into parameter descriptors
(init fields) and attribute descriptors (non-init fields passing the
privacy gate), keeping the enumeration order. -/
def fields_to_params (fs : List FieldInfo) (ms : Members) (include_private : Bool) :
    List DocstringElement × List DocstringElement :=
  match fs with
  | [] => ([], [])
  | f :: rest =>
    let pr := fields_to_params rest ms include_private
    if f.init then (mkElem ms f :: pr.1, pr.2)
    else if include_private || !(startsWithUnderscore f.name) then (pr.1, mkElem ms f :: pr.2)
    else pr

/-- _merge: collect the section's existing names once, then append each
new descriptor whose name is not among them. -/
def mergeEntries (sec : List DocstringElement) (field_params : List DocstringElement) :
    List DocstringElement :=
  let existing_names := sec.map (fun e => e.name)
  field_params.foldl
    (fun acc p => if p.name ∈ existing_names then acc else acc ++ [p]) sec

/-- The for/else loop over sections for DocstringSectionParameters:
merge into the first parameters section, or report none found. -/
def mergeFirstParamSection :
    List DocstringSection → List DocstringElement → Option (List DocstringSection)
  | [], _ => none
  | DocstringSection.parameters v :: rest, new =>
      some (DocstringSection.parameters (mergeEntries v new) :: rest)
  | s :: rest, new => (mergeFirstParamSection rest new).map (fun r => s :: r)

/-- The for/else loop over sections for DocstringSectionAttributes. -/
def mergeFirstAttrSection :
    List DocstringSection → List DocstringElement → Option (List DocstringSection)
  | [], _ => none
  | DocstringSection.attributes v :: rest, new =>
      some (DocstringSection.attributes (mergeEntries v new) :: rest)
  | s :: rest, new => (mergeFirstAttrSection rest new).map (fun r => s :: r)

/-- Python list.insert: clamps the index like CPython does. -/
def pyInsert (n : Nat) (x : α) (l : List α) : List α :=
  l.take n ++ x :: l.drop n

/-- Lines 108-114 of the source: when params is non-empty, merge them
into the first parameters section, else insert a new parameters section
at index 1. -/
def paramPhase (sections : List DocstringSection) (params : List DocstringElement) :
    List DocstringSection :=
  if params.isEmpty then sections
  else (mergeFirstParamSection sections params).getD
    (pyInsert 1 (DocstringSection.parameters params) sections)

/-- Lines 115-121 of the source: when attrs is non-empty, merge into the
first attributes section, else append a new attributes section.  The
source's line 118 calls _merge(x, params) with the params list, not
attrs, so the merge branch receives params. -/
def attrPhase (sections : List DocstringSection) (params ats : List DocstringElement) :
    List DocstringSection :=
  if ats.isEmpty then sections
  else (mergeFirstAttrSection sections params).getD
    (sections ++ [DocstringSection.attributes ats])

/-- The merge/add block of _inject_fields (lines 107-121). -/
def injectSections (sections : List DocstringSection) (params ats : List DocstringElement) :
    List DocstringSection :=
  attrPhase (paramPhase sections params) params ats

/-- _agent_temp_members: save the members mapping, run the body on an
agent whose members are emptied, and restore the saved mapping when the
scope exits, also when the body raises (try/finally). -/
def agent_temp_members {Ex α : Type} (ag : Agent) (body : Agent → Agent × Except Ex α) :
    Agent × Except Ex α :=
  let prev := ag.members
  let res := body ⟨[], ag.rest⟩
  (⟨prev, (res.1).rest⟩, res.2)

/-- The body run inside the _agent_temp_members scope: agent.visit on
the class node and its assignment subnodes (modelled by its outcome
visitR: the members mapping it builds, or the exception it raises),
then _fields_to_params over the discovered members. -/
def inject_visit_body {Ex : Type} (visitR : Except Ex Members) (fs : List FieldInfo)
    (include_private : Bool) (a : Agent) :
    Agent × Except Ex (List DocstringElement × List DocstringElement) :=
  match visitR with
  | Except.error e => (a, Except.error e)
  | Except.ok ms => (⟨ms, a.rest⟩, Except.ok (fields_to_params fs ms include_private))

/-- FieldzExtension._inject_fields: synthesize a docstring from the
runtime object when the class has none, restrict the adapter's fields to
the class's own annotations unless inherited fields are included, build
the descriptors inside the temporary-members scope, and merge them into
the section list.  Returns the agent, the class, and the propagated
outcome. -/
def inject_fields {Ex : Type} (obj : ClassObj) (r : RuntimeObj) (ag : Agent)
    (visitR : Except Ex Members) (include_inherited include_private : Bool) :
    Agent × ClassObj × Except Ex Unit :=
  let obj1 :=
    match obj.docstring with
    | some _ => obj
    | none => ⟨obj.path, some r.parsedDoc⟩
  let sections := (obj1.docstring).getD []
  let fs :=
    if include_inherited then r.fields
    else r.fields.filter (fun f => decide (f.name ∈ r.annNames))
  let t := agent_temp_members ag (inject_visit_body visitR fs include_private)
  match t.2 with
  | Except.error e => (t.1, obj1, Except.error e)
  | Except.ok pa =>
      (t.1, ⟨obj1.path, some (injectSections sections pa.1 pa.2)⟩, Except.ok ())

/-- The truthiness test of line 63: object_paths is set (non-None and
non-empty) and the class path is not in it. -/
def skip_by_paths (paths : Option (List String)) (p : String) : Bool :=
  match paths with
  | none => false
  | some l => !l.isEmpty && !l.contains p

/-- FieldzExtension.on_class_instance: the eligibility filter followed
by _inject_fields.  nodeIsRuntime models isinstance(node, ObjectNode);
importR models the dynamic_import outcome (ImportError caught);
r.adaptable models whether fieldz.get_adapter raises TypeError. -/
def on_class_instance {Ex : Type} (cfg : Config) (nodeIsRuntime : Bool) (obj : ClassObj)
    (ag : Agent) (importR : Except Unit RuntimeObj) (visitR : Except Ex Members) :
    List LogEvent × Agent × ClassObj × Except Ex Unit :=
  if nodeIsRuntime then ([], ag, obj, Except.ok ())
  else if skip_by_paths cfg.object_paths obj.path then ([], ag, obj, Except.ok ())
  else
    match importR with
    | Except.error _ =>
        ([LogEvent.debug ("Could not get dynamic docstring for " ++ obj.path)],
         ag, obj, Except.ok ())
    | Except.ok r =>
        if !r.adaptable then ([], ag, obj, Except.ok ())
        else
          let t := inject_fields obj r ag visitR cfg.include_inherited cfg.include_private
          ([], t.1, t.2.1, t.2.2)

/-! ## Concrete instances used by the claim theorems and witnesses -/

/-- A constructor-participating field named a, with no type, description,
metadata or default. -/
def fldA : FieldInfo := ⟨"a", none, none, [], none, none, true⟩

/-- A non-constructor public field named b. -/
def fldB : FieldInfo := ⟨"b", none, none, [], none, none, false⟩

/-- The descriptor _fields_to_params produces for fldA under an empty
members mapping. -/
def elemA : DocstringElement := ⟨"a", none, "", none⟩

/-- The descriptor _fields_to_params produces for fldB under an empty
members mapping. -/
def elemB : DocstringElement := ⟨"b", none, "", none⟩

/-- A runtime object whose adapter reports fldA and fldB, both present
in its own annotations. -/
def rtObj : RuntimeObj := ⟨[], [fldA, fldB], ["a", "b"], true⟩

/-- An agent with an empty current-scope members mapping. -/
def agent0 : Agent := ⟨[], 0⟩

/-- A class whose docstring parses to an empty section list. -/
def cls0 : ClassObj := ⟨"mod.C", some []⟩

/-- The class state after one run of _inject_fields on cls0. -/
def runOnce : ClassObj :=
  (inject_fields cls0 rtObj agent0 (Except.ok ([] : Members) : Except Unit Members)
    false false).2.1

/-- The class state after a second run of _inject_fields on runOnce with
the same inputs. -/
def runTwice : ClassObj :=
  (inject_fields runOnce rtObj agent0 (Except.ok ([] : Members) : Except Unit Members)
    false false).2.1

/-- A class whose docstring already contains an (empty) attributes
section. -/
def cls2 : ClassObj := ⟨"mod.C", some [DocstringSection.attributes []]⟩

/-- The class state after one run of _inject_fields on cls2. -/
def run2 : ClassObj :=
  (inject_fields cls2 rtObj agent0 (Except.ok ([] : Members) : Except Unit Members)
    false false).2.1

/-- A field carrying an adapter-reported description. -/
def f3 : FieldInfo := ⟨"x", none, some "adapter desc", [], none, none, true⟩

/-- A members mapping in which the agent discovered an inline docstring
for the same field name. -/
def m3 : Members := [("x", ⟨some "agent desc", none⟩)]

/-- Two pre-existing section entries sharing the name x. -/
def eX1 : DocstringElement := ⟨"x", none, "first", none⟩

/-- Second pre-existing entry named x with a different description. -/
def eX2 : DocstringElement := ⟨"x", none, "second", none⟩

/-- A field with both a literal default and a default factory. -/
def f6 : FieldInfo :=
  ⟨"timeout", some "int", some "connect timeout", [], some "30", some "0", true⟩

/-! ## Helper lemmas -/

/-- The _merge loop, with the name set fixed up front, appends exactly
the descriptors whose names are outside that set. -/
theorem mergeEntries_foldl_eq (names : List String) (acc ps : List DocstringElement) :
    ps.foldl (fun acc p => if p.name ∈ names then acc else acc ++ [p]) acc
      = acc ++ ps.filter (fun p => decide (p.name ∉ names)) := by
  induction ps generalizing acc with
  | nil => simp
  | cons p ps ih =>
    simp only [List.foldl_cons, List.filter_cons]
    by_cases h : p.name ∈ names
    · simp [h, ih]
    · simp [h, ih]

/-- _merge appends the new descriptors with unseen names after the
untouched pre-existing entries. -/
theorem mergeEntries_eq (sec new : List DocstringElement) :
    mergeEntries sec new
      = sec ++ new.filter (fun p => decide (p.name ∉ sec.map (fun e => e.name))) := by
  unfold mergeEntries
  exact mergeEntries_foldl_eq (sec.map (fun e => e.name)) sec new

/-- Bool test for the isinstance check on DocstringSectionParameters. -/
def isParamSection : DocstringSection → Bool
  | DocstringSection.parameters _ => true
  | _ => false

/-- Bool test for the isinstance check on DocstringSectionAttributes. -/
def isAttrSection : DocstringSection → Bool
  | DocstringSection.attributes _ => true
  | _ => false

/-- When no parameters section exists, the for/else search reports
none. -/
theorem mergeFirstParamSection_eq_none (sections : List DocstringSection)
    (new : List DocstringElement) (h : ∀ s ∈ sections, isParamSection s = false) :
    mergeFirstParamSection sections new = none := by
  induction sections with
  | nil => rfl
  | cons s rest ih =>
    cases s with
    | parameters v =>
      have hs := h _ (List.mem_cons_self _ _)
      simp [isParamSection] at hs
    | attributes v =>
      simp [mergeFirstParamSection, ih (fun x hx => h x (List.mem_cons_of_mem _ hx))]
    | text t =>
      simp [mergeFirstParamSection, ih (fun x hx => h x (List.mem_cons_of_mem _ hx))]

/-- When no attributes section exists, the for/else search reports
none. -/
theorem mergeFirstAttrSection_eq_none (sections : List DocstringSection)
    (new : List DocstringElement) (h : ∀ s ∈ sections, isAttrSection s = false) :
    mergeFirstAttrSection sections new = none := by
  induction sections with
  | nil => rfl
  | cons s rest ih =>
    cases s with
    | attributes v =>
      have hs := h _ (List.mem_cons_self _ _)
      simp [isAttrSection] at hs
    | parameters v =>
      simp [mergeFirstAttrSection, ih (fun x hx => h x (List.mem_cons_of_mem _ hx))]
    | text t =>
      simp [mergeFirstAttrSection, ih (fun x hx => h x (List.mem_cons_of_mem _ hx))]

/-! ## Claim theorems -/

/-- Claim C1 (code bug): injection is not idempotent.  On a class with a
constructor field a and a non-constructor field b, the first run yields
a parameters section [a] and an attributes section [b], but the second
run appends the parameter descriptor a to the attributes section,
because line 118 of the source merges the params list (not attrs) into
an existing attributes section. -/
theorem c1_injection_not_idempotent :
    runOnce.docstring
        = some [DocstringSection.parameters [elemA], DocstringSection.attributes [elemB]]
      ∧ runTwice.docstring
        = some [DocstringSection.parameters [elemA],
                DocstringSection.attributes [elemB, elemA]]
      ∧ runTwice ≠ runOnce := by
  refine ⟨by decide, by decide, by decide⟩

/-- Claim C2 (code bug): when the docstring already contains an
attributes section, the injector does not merge the attribute
descriptors into it.  On a class with an existing empty attributes
section, constructor field a and non-constructor field b, the code
appends the parameter descriptor a to the attributes section and never
adds the attribute descriptor b, instead of producing an attributes
section holding b. -/
theorem c2_attrs_merge_uses_params :
    run2.docstring
        = some [DocstringSection.attributes [elemA], DocstringSection.parameters [elemA]]
      ∧ run2.docstring
        ≠ some [DocstringSection.attributes [elemB], DocstringSection.parameters [elemA]] := by
  refine ⟨by decide, by decide⟩

/-- Claim C3, counterexample: on a field carrying both an
adapter-reported description and an agent-discovered docstring, the
emitted descriptor uses the adapter-reported description, not the
agent-discovered one, because line 176 of the source tests
field.description first in the or-chain. -/
theorem c3_description_counterexample :
    (mkElem m3 f3).description = "adapter desc"
      ∧ (mkElem m3 f3).description ≠ "agent desc" := by
  refine ⟨by decide, by decide⟩

/-- Claim C3, amended: the effective annotation is the agent-discovered
annotation when truthy, else the rendering of the declared type; the
effective description is the first truthy entry of the chain
field.description, metadata description, agent-discovered docstring,
else the empty string — dedented and stripped. -/
theorem c3_description_precedence (f : FieldInfo) (ms : Members) :
    ((annTruthy (agent_docstring ms f.name).2 = true →
        DocstringElement.annot (mkElem ms f) = (agent_docstring ms f.name).2)
      ∧ (annTruthy (agent_docstring ms f.name).2 = false →
        DocstringElement.annot (mkElem ms f) = toAnnot f.type))
    ∧ ((pyTruthyS f.description = true →
          (mkElem ms f).description = pyStrip (dedent (f.description.getD "")))
      ∧ (pyTruthyS f.description = false →
          pyTruthyS (some (metaGet f.metadata "description" "")) = true →
          (mkElem ms f).description = pyStrip (dedent (metaGet f.metadata "description" "")))
      ∧ (pyTruthyS f.description = false →
          pyTruthyS (some (metaGet f.metadata "description" "")) = false →
          pyTruthyS (agent_docstring ms f.name).1 = true →
          (mkElem ms f).description
            = pyStrip (dedent (((agent_docstring ms f.name).1).getD "")))
      ∧ (pyTruthyS f.description = false →
          pyTruthyS (some (metaGet f.metadata "description" "")) = false →
          pyTruthyS (agent_docstring ms f.name).1 = false →
          (mkElem ms f).description = pyStrip (dedent ""))) := by
  refine ⟨⟨?_, ?_⟩, ?_, ?_, ?_, ?_⟩
  · intro h; simp [mkElem, h]
  · intro h; simp [mkElem, h]
  · intro h
    have hd : ∃ t, f.description = some t := by
      cases hfd : f.description with
      | none => rw [hfd] at h; simp [pyTruthyS] at h
      | some t => exact ⟨t, rfl⟩
    obtain ⟨t, ht⟩ := hd
    rw [ht] at h
    simp [mkElem, effDescription, pyOrS, h, ht]
  · intro h1 h2
    simp [mkElem, effDescription, pyOrS, h1, h2]
  · intro h1 h2 h3
    have hd : ∃ t, (agent_docstring ms f.name).1 = some t := by
      cases hfd : (agent_docstring ms f.name).1 with
      | none => rw [hfd] at h3; simp [pyTruthyS] at h3
      | some t => exact ⟨t, rfl⟩
    obtain ⟨t, ht⟩ := hd
    rw [ht] at h3
    simp [mkElem, effDescription, pyOrS, h1, h2, h3, ht]
  · intro h1 h2 h3
    simp [mkElem, effDescription, pyOrS, h1, h2, h3]

/-- Claim C3, witness for the amended theorem at the concrete field f3
with members m3. -/
theorem c3_description_precedence_witness :
    DocstringElement.annot (mkElem m3 f3) = toAnnot f3.type
      ∧ (mkElem m3 f3).description = pyStrip (dedent (f3.description.getD "")) := by
  have h := c3_description_precedence f3 m3
  exact ⟨h.1.2 (by decide), h.2.1 (by decide)⟩

/-- Claim C4, counterexample: when the pre-existing section itself holds
two entries sharing the name x, _merge (here with an empty, trivially
pairwise-distinct list of new descriptors) leaves the duplicate in
place, so the resulting section has two entries sharing a name. -/
theorem c4_duplicate_existing_counterexample :
    ((mergeEntries [eX1, eX2] []).map (fun e => e.name)).Nodup = False := by
  simp only [eq_iff_iff, iff_false]
  decide

/-- Claim C4, amended: _merge leaves the pre-existing entries unchanged,
in order, as a prefix of the result, appends exactly the new descriptors
whose names were absent at the start, and — provided the pre-existing
entries, like the new descriptors, have pairwise-distinct names — no two
entries of the result share a name. -/
theorem c4_merge_preserves (sec new : List DocstringElement)
    (h1 : ((sec.map (fun e => e.name)).Nodup))
    (h2 : ((new.map (fun e => e.name)).Nodup)) :
    mergeEntries sec new
        = sec ++ new.filter (fun p => decide (p.name ∉ sec.map (fun e => e.name)))
      ∧ ((mergeEntries sec new).map (fun e => e.name)).Nodup := by
  refine ⟨mergeEntries_eq sec new, ?_⟩
  rw [mergeEntries_eq, List.map_append, List.nodup_append]
  refine ⟨h1, ?_, ?_⟩
  · exact h2.sublist (List.Sublist.map _ (List.filter_sublist new))
  · intro a ha hb
    rw [List.mem_map] at hb
    obtain ⟨p, hp, hpa⟩ := hb
    have hf := List.of_mem_filter hp
    rw [decide_eq_true_iff] at hf
    exact hf (hpa ▸ ha)

/-- Claim C4, witness for the amended theorem on a section holding elemA
and the new descriptor list holding elemB. -/
theorem c4_merge_preserves_witness :
    ((mergeEntries [elemA] [elemB]).map (fun e => e.name)).Nodup :=
  (c4_merge_preserves [elemA] [elemB] (by decide) (by decide)).2

/-- Claim C5: once the runtime-node and allow-list filters pass, a
failing dynamic import makes the hook emit exactly one debug log and
return with the class and agent unchanged and no exception; a runtime
object whose type the adapter rejects makes the hook return silently
with the class and agent unchanged and no exception. -/
theorem c5_eligibility_error_handling {Ex : Type} (cfg : Config) (obj : ClassObj)
    (ag : Agent) (visitR : Except Ex Members)
    (hskip : skip_by_paths cfg.object_paths obj.path = false) :
    on_class_instance cfg false obj ag (Except.error ()) visitR
        = ([LogEvent.debug ("Could not get dynamic docstring for " ++ obj.path)],
           ag, obj, Except.ok ())
      ∧ ∀ r : RuntimeObj, r.adaptable = false →
          on_class_instance cfg false obj ag (Except.ok r) visitR
            = ([], ag, obj, Except.ok ()) := by
  constructor
  · simp [on_class_instance, hskip]
  · intro r hr
    simp [on_class_instance, hskip, hr]

/-- Claim C5, witness at a concrete configuration and class for both
failure modes. -/
theorem c5_eligibility_witness :
    on_class_instance ⟨none, false, false⟩ false cls0 agent0 (Except.error ())
        (Except.ok ([] : Members) : Except Unit Members)
      = ([LogEvent.debug ("Could not get dynamic docstring for " ++ cls0.path)],
         agent0, cls0, Except.ok ())
    ∧ on_class_instance ⟨none, false, false⟩ false cls0 agent0
        (Except.ok (⟨[], [], [], false⟩ : RuntimeObj))
        (Except.ok ([] : Members) : Except Unit Members)
      = ([], agent0, cls0, Except.ok ()) := by
  have h := c5_eligibility_error_handling ⟨none, false, false⟩ cls0 agent0
    (Except.ok ([] : Members) : Except Unit Members) (by decide)
  exact ⟨h.1, h.2 ⟨[], [], [], false⟩ (by decide)⟩

/-- Claim C6: _default_repr returns the repr of the explicit default
whenever one is present (the factory branch then never applies), else
the repr of invoking the default factory when one is present, else no
default text. -/
theorem c6_default_value_text (f : FieldInfo) :
    (∀ r, FieldInfo.default f = some r → default_repr f = some r)
      ∧ (∀ r, FieldInfo.default f = none → FieldInfo.default_factory f = some r →
          default_repr f = some r)
      ∧ (FieldInfo.default f = none → FieldInfo.default_factory f = none →
          default_repr f = none) := by
  refine ⟨?_, ?_, ?_⟩
  · intro r h
    simp [default_repr, h]
  · intro r h1 h2
    simp [default_repr, h1, h2]
  · intro h1 h2
    simp [default_repr, h1, h2]

/-- Claim C6, witness: the field f6 carries both a literal default
(repr 30) and a factory; the emitted value is the literal default's
repr. -/
theorem c6_default_value_text_witness : default_repr f6 = some "30" :=
  (c6_default_value_text f6).1 "30" rfl

/-- Claim C7: _fields_to_params turns exactly the constructor fields
into parameter descriptors and exactly the non-constructor fields whose
name does not start with an underscore — or all non-constructor fields
when include_private is set — into attribute descriptors, preserving
the enumeration order; underscore-prefixed non-constructor fields are
dropped entirely when include_private is false. -/
theorem c7_classification_privacy (fs : List FieldInfo) (ms : Members) (ip : Bool) :
    fields_to_params fs ms ip
      = ((fs.filter (fun f => f.init)).map (mkElem ms),
         (fs.filter (fun f => !f.init && (ip || !(startsWithUnderscore f.name)))).map
           (mkElem ms)) := by
  induction fs with
  | nil => rfl
  | cons f rest ih =>
    simp only [fields_to_params, ih, List.filter_cons]
    cases hf : f.init with
    | true => simp
    | false =>
      cases hip : (ip || !(startsWithUnderscore f.name)) with
      | true => simp [hip]
      | false => simp [hip]

/-- Claim C8: when no parameters section exists and at least one
parameter descriptor was produced, the new parameters section is
inserted at index 1 of the section list; when no attributes section
exists and at least one attribute descriptor was produced, the new
attributes section is appended at the end. -/
theorem c8_section_placement (sections : List DocstringSection)
    (params ats : List DocstringElement) :
    ((∀ s ∈ sections, isParamSection s = false) → params ≠ [] →
        paramPhase sections params
          = pyInsert 1 (DocstringSection.parameters params) sections)
      ∧ ((∀ s ∈ sections, isAttrSection s = false) → ats ≠ [] →
        attrPhase sections params ats
          = sections ++ [DocstringSection.attributes ats]) := by
  constructor
  · intro h hp
    have hne : params.isEmpty = false := by
      cases params with
      | nil => simp at hp
      | cons a l => rfl
    simp [paramPhase, hne, mergeFirstParamSection_eq_none sections params h]
  · intro h ha
    have hne : ats.isEmpty = false := by
      cases ats with
      | nil => simp at ha
      | cons a l => rfl
    simp [attrPhase, hne, mergeFirstAttrSection_eq_none sections params h]

/-- Claim C8, witness on a section list holding one text section: the
parameters section lands at index 1 and the attributes section is
appended. -/
theorem c8_section_placement_witness :
    paramPhase [DocstringSection.text "intro"] [elemA]
        = pyInsert 1 (DocstringSection.parameters [elemA]) [DocstringSection.text "intro"]
      ∧ attrPhase [DocstringSection.text "intro"] [elemA] [elemB]
        = [DocstringSection.text "intro"] ++ [DocstringSection.attributes [elemB]] := by
  have h := c8_section_placement [DocstringSection.text "intro"] [elemA] [elemB]
  exact ⟨h.1 (by decide) (by decide), h.2 (by decide) (by decide)⟩

/-- Claim C9: _agent_temp_members restores the saved members mapping on
scope exit whatever the body does — the members after the call equal the
members before, the body runs on an emptied mapping, and the body's
normal or exceptional outcome is passed through; consequently
_inject_fields leaves the agent's members mapping as it found it, also
when visiting raises. -/
theorem c9_scoped_member_restore {Ex α : Type} (ag : Agent)
    (body : Agent → Agent × Except Ex α) (obj : ClassObj) (r : RuntimeObj)
    (visitR : Except Ex Members) (ii ip : Bool) :
    ((agent_temp_members ag body).1.members = ag.members
      ∧ (agent_temp_members ag body).2 = (body ⟨[], ag.rest⟩).2)
    ∧ (inject_fields obj r ag visitR ii ip).1.members = ag.members := by
  refine ⟨⟨rfl, rfl⟩, ?_⟩
  cases visitR with
  | error e => rfl
  | ok ms => rfl

/-- Claim C10: an empty object_paths list is falsy, so it never causes a
skip — the hook behaves exactly as with object_paths=None, and every
class passes the allow-list check. -/
theorem c10_empty_object_paths (p : String) (ip ii nodeIsRuntime : Bool) (obj : ClassObj)
    (ag : Agent) (importR : Except Unit RuntimeObj) (visitR : Except Unit Members) :
    skip_by_paths (some []) p = false
      ∧ on_class_instance ⟨some [], ip, ii⟩ nodeIsRuntime obj ag importR visitR
        = on_class_instance ⟨none, ip, ii⟩ nodeIsRuntime obj ag importR visitR := by
  refine ⟨rfl, ?_⟩
  cases nodeIsRuntime with
  | true => rfl
  | false =>
    cases importR with
    | error e => rfl
    | ok r => rfl
